import Mathlib

/-!
Verification of the cost-basis / valuation engine of the finance tracking
web application.  The Python services under `backend/app/services` are
shallowly embedded: `Decimal` amounts become `ℚ`, transaction dates become
`ℤ` (day numbers), snapshot datetimes become `ℚ` (days, possibly
fractional), the SQLAlchemy session becomes an explicit list-of-rows store,
and fallible Python code (raising exceptions) becomes `Except String`.
-/

namespace FinanceTrack

/-- The `TransactionType` enum from `app/constants.py`. -/
inductive TransactionType where
  | BUY : TransactionType
  | SELL : TransactionType
deriving DecidableEq, Repr

/-- A row of the `transactions` table (`app/models/transaction.py`).
Monetary columns (`Numeric`) are embedded as `ℚ`, the `date` column as an
integer day number. -/
structure Transaction where
  id : Int
  date : Int
  isin : String
  broker : String
  fee : ℚ
  price_per_unit : ℚ
  units : ℚ
  transaction_type : TransactionType
deriving DecidableEq, Repr

/-- The `CostBasisResponse` from `app/schemas/analytics.py` (stored fields only;
the pydantic `computed_field` properties are derived on access and carry no
state). -/
structure CostBasisResponse where
  isin : String
  total_units : ℚ
  total_cost_without_fees : ℚ
  total_gains_without_fees : ℚ
  total_fees : ℚ
  transactions_count : Nat
  current_value : Option ℚ
  absolute_pl_without_fees : Option ℚ
  percentage_pl_without_fees : Option ℚ
  absolute_pl_with_fees : Option ℚ
  percentage_pl_with_fees : Option ℚ
deriving DecidableEq, Repr

/-- Python's `str.upper()` (character-wise uppercasing), as applied to
ISIN codes throughout the services. -/
def pyUpper (s : String) : String := ⟨s.data.map Char.toUpper⟩

/-- The query in `calculate_cost_basis` (cost_basis_service.py lines 30-35):
filter by uppercased ISIN, optionally cut off after `as_of_date`, order by
date ascending. -/
def queryTransactions (db : List Transaction) (isin : String)
    (as_of_date : Option Int) : List Transaction :=
  let q := db.filter (fun t => t.isin = pyUpper isin)
  let q :=
    match as_of_date with
    | some d => q.filter (fun t => t.date ≤ d)
    | none => q
  List.insertionSort (fun a b => a.date ≤ b.date) q

/-- Accumulator of the forward pass in `calculate_cost_basis`. -/
structure CostBasisAcc where
  total_units : ℚ
  sum_costs_without_fees : ℚ
  sum_gains_without_fees : ℚ
  total_fees : ℚ
  transaction_count : Nat
deriving DecidableEq, Repr

/-- One iteration of the `for txn in transactions` loop in
`calculate_cost_basis` (cost_basis_service.py lines 48-66). -/
def costBasisStep (acc : CostBasisAcc) (txn : Transaction) : CostBasisAcc :=
  match txn.transaction_type with
  | .BUY =>
      { acc with
        sum_costs_without_fees :=
          acc.sum_costs_without_fees + txn.price_per_unit * txn.units
        total_fees := acc.total_fees + txn.fee
        total_units := acc.total_units + txn.units
        transaction_count := acc.transaction_count + 1 }
  | .SELL =>
      { acc with
        sum_gains_without_fees :=
          acc.sum_gains_without_fees + txn.price_per_unit * txn.units
        total_fees := acc.total_fees + txn.fee
        total_units := acc.total_units - txn.units
        transaction_count := acc.transaction_count + 1 }

/-- The forward pass of `calculate_cost_basis` starting from all-zero
accumulators (cost_basis_service.py lines 40-66). -/
def costBasisFold (transactions : List Transaction) : CostBasisAcc :=
  transactions.foldl costBasisStep ⟨0, 0, 0, 0, 0⟩

/-- The `calculate_cost_basis` (cost_basis_service.py lines 16-80): `none`
models the Python `None` returned when the instrument has no transactions. -/
def calculate_cost_basis (db : List Transaction) (isin : String)
    (as_of_date : Option Int) : Option CostBasisResponse :=
  let transactions := queryTransactions db isin as_of_date
  if transactions.isEmpty then
    none
  else
    let a := costBasisFold transactions
    some
      { isin := pyUpper isin
        total_units := a.total_units
        total_cost_without_fees := a.sum_costs_without_fees
        total_gains_without_fees := a.sum_gains_without_fees
        total_fees := a.total_fees
        transactions_count := a.transaction_count
        current_value := none
        absolute_pl_without_fees := none
        percentage_pl_without_fees := none
        absolute_pl_with_fees := none
        percentage_pl_with_fees := none }

/-- The two-transaction scenario of the spec: BUY 10 units @100 fee 1.50,
then SELL 3 units @110 fee 1.50, one instrument. -/
def scenarioBuy : Transaction :=
  { id := 1, date := 1, isin := "IE00B4L5Y983", broker := "DEGIRO"
    fee := 3/2, price_per_unit := 100, units := 10
    transaction_type := .BUY }

/-- SELL row of the spec scenario. -/
def scenarioSell : Transaction :=
  { id := 2, date := 2, isin := "IE00B4L5Y983", broker := "DEGIRO"
    fee := 3/2, price_per_unit := 110, units := 3
    transaction_type := .SELL }

/-- Python `Decimal` division: raises `DivisionByZero` on a zero divisor. -/
def pyDiv (a b : ℚ) : Except String ℚ :=
  if b = 0 then .error "DivisionByZero" else .ok (a / b)

/-- The conditional-expression pattern
`(absolute / denominator * 100) if denominator > 0 else 0` used for every
percentage field in `calculate_current_holdings_and_closed_positions`
(cost_basis_service.py lines 114-118, 123-127, 142-146, 151-155), with
Python's raising division semantics. -/
def guardedPctDiv (absolute denominator : ℚ) : Except String ℚ :=
  if 0 < denominator then
    match pyDiv absolute denominator with
    | .error e => .error e
    | .ok q => .ok (q * 100)
  else .ok 0

/-- Spec-side formula (§4.2 of the design): percentage equals
absolute ÷ denominator × 100 when the denominator is strictly positive and
exactly 0 otherwise.  Stated from the spec's words, to be compared with the
source-translated `guardedPctDiv`. -/
def specGuardedPct (absolute denominator : ℚ) : ℚ :=
  if 0 < denominator then absolute / denominator * 100 else 0

/-- The `elif cost_basis.total_units == 0` branch of the classifier loop
(cost_basis_service.py lines 137-162): realized P/L for a closed position;
a response with nonzero units passes through unchanged (the Python loop
body mutates nothing in that case). -/
def closed_position_realized_pl (cost_basis : CostBasisResponse) :
    Except String CostBasisResponse :=
  if cost_basis.total_units = 0 then
    let absolute_pl_without_fees :=
      cost_basis.total_gains_without_fees - cost_basis.total_cost_without_fees
    match guardedPctDiv absolute_pl_without_fees
        cost_basis.total_cost_without_fees with
    | .error e => .error e
    | .ok percentage_pl_without_fees =>
        let absolute_pl_with_fees :=
          absolute_pl_without_fees - cost_basis.total_fees
        let total_cost_with_fees :=
          cost_basis.total_cost_without_fees + cost_basis.total_fees
        match guardedPctDiv absolute_pl_with_fees total_cost_with_fees with
        | .error e => .error e
        | .ok percentage_pl_with_fees =>
            .ok { cost_basis with
              current_value := some 0
              absolute_pl_without_fees := some absolute_pl_without_fees
              percentage_pl_without_fees := some percentage_pl_without_fees
              absolute_pl_with_fees := some absolute_pl_with_fees
              percentage_pl_with_fees := some percentage_pl_with_fees }
  else .ok cost_basis

/-- The P/L-attachment step of the classifier loop body
(cost_basis_service.py lines 104-162): the
`if current_value is not None and cost_basis.total_units > 0` branch
computes open-holding P/L, otherwise the
`elif cost_basis.total_units == 0` branch computes realized P/L. -/
def attach_profit_loss (cost_basis : CostBasisResponse)
    (current_value? : Option ℚ) : Except String CostBasisResponse :=
  match current_value? with
  | some current_value =>
      if 0 < cost_basis.total_units then
        let total_cost_without_fees :=
          cost_basis.total_cost_without_fees
            - cost_basis.total_gains_without_fees
        let absolute_pl_without_fees := current_value - total_cost_without_fees
        match guardedPctDiv absolute_pl_without_fees
            total_cost_without_fees with
        | .error e => .error e
        | .ok percentage_pl_without_fees =>
            let total_cost_with_fees :=
              total_cost_without_fees + cost_basis.total_fees
            let absolute_pl_with_fees := current_value - total_cost_with_fees
            match guardedPctDiv absolute_pl_with_fees total_cost_with_fees with
            | .error e => .error e
            | .ok percentage_pl_with_fees =>
                .ok { cost_basis with
                  current_value := some current_value
                  absolute_pl_without_fees := some absolute_pl_without_fees
                  percentage_pl_without_fees := some percentage_pl_without_fees
                  absolute_pl_with_fees := some absolute_pl_with_fees
                  percentage_pl_with_fees := some percentage_pl_with_fees }
      else closed_position_realized_pl cost_basis
  | none => closed_position_realized_pl cost_basis

/-- First-occurrence deduplication, modelling both
`db.query(Transaction.isin).distinct()` and Python dict-key grouping. -/
def distinctAux {α : Type} [DecidableEq α] (seen : List α) :
    List α → List α
  | [] => []
  | x :: xs => if x ∈ seen then distinctAux seen xs
               else x :: distinctAux (x :: seen) xs

/-- The distinct stored ISIN codes of the transaction store
(cost_basis_service.py line 97). -/
def distinctIsins (db : List Transaction) : List String :=
  distinctAux [] (db.map (fun t => t.isin))

/-- The `for (isin,) in isins` loop of
`calculate_current_holdings_and_closed_positions`
(cost_basis_service.py lines 99-168), carrying the two result lists. -/
def classifyGo (db : List Transaction) (pvMap : String → Option ℚ) :
    List String → List CostBasisResponse → List CostBasisResponse →
    Except String (List CostBasisResponse × List CostBasisResponse)
  | [], holdings, closed_positions => .ok (holdings, closed_positions)
  | isin :: rest, holdings, closed_positions =>
      match calculate_cost_basis db isin none with
      | none => classifyGo db pvMap rest holdings closed_positions
      | some cost_basis =>
          match attach_profit_loss cost_basis (pvMap (pyUpper isin)) with
          | .error e => .error e
          | .ok cb =>
              if 0 < cb.total_units then
                classifyGo db pvMap rest (holdings ++ [cb]) closed_positions
              else if cb.total_units = 0 then
                classifyGo db pvMap rest holdings (closed_positions ++ [cb])
              else
                classifyGo db pvMap rest holdings closed_positions

/-- The `calculate_current_holdings_and_closed_positions`
(cost_basis_service.py lines 83-170). -/
def calculate_current_holdings_and_closed_positions
    (db : List Transaction) (pvMap : String → Option ℚ) :
    Except String (List CostBasisResponse × List CostBasisResponse) :=
  classifyGo db pvMap (distinctIsins db) [] []

/-- A row of the `position_values` table
(`app/models/position_value.py`). -/
structure PositionValue where
  isin : String
  current_value : ℚ
deriving DecidableEq, Repr

/-- The dict comprehension
`{pv.isin.upper(): pv.current_value for pv in position_values}`
(cost_basis_service.py line 185); a later entry overwrites an earlier one
with the same uppercased key. -/
def positionValuesMap (position_values : List PositionValue) (k : String) :
    Option ℚ :=
  ((position_values.filter (fun pv => pyUpper pv.isin = k)).getLast?).map
    (fun pv => pv.current_value)

/-- The `PortfolioSummaryResponse` from `app/schemas/analytics.py`. -/
structure PortfolioSummaryResponse where
  total_invested : ℚ
  total_withdrawn : ℚ
  total_fees : ℚ
  total_current_portfolio_invested_value : ℚ
  total_profit_loss : ℚ
  holdings : List CostBasisResponse
  closed_positions : List CostBasisResponse
deriving DecidableEq, Repr

/-- The `get_portfolio_summary` (cost_basis_service.py lines 173-226).  The
position-value store is passed explicitly (the Python function fetches it
from the session). -/
def get_portfolio_summary (db : List Transaction)
    (position_values : List PositionValue) :
    Except String PortfolioSummaryResponse :=
  match calculate_current_holdings_and_closed_positions db
      (positionValuesMap position_values) with
  | .error e => .error e
  | .ok (holdings, closed_positions) =>
      let total_invested :=
        ((db.filter (fun t => t.transaction_type = .BUY)).map
          (fun t => t.price_per_unit * t.units)).sum
      let total_withdrawn :=
        ((db.filter (fun t => t.transaction_type = .SELL)).map
          (fun t => t.price_per_unit * t.units)).sum
      let total_fees := (db.map (fun t => t.fee)).sum
      let total_current_portfolio_invested_value :=
        if position_values.isEmpty then 0
        else (position_values.map (fun pv => pv.current_value)).sum
      .ok
        { total_invested := total_invested
          total_withdrawn := total_withdrawn
          total_fees := total_fees
          total_current_portfolio_invested_value :=
            total_current_portfolio_invested_value
          total_profit_loss :=
            total_current_portfolio_invested_value + total_withdrawn
              - total_fees - total_invested
          holdings := holdings
          closed_positions := closed_positions }

/-- Cost-basis response produced by `calculate_cost_basis` on the
single-transaction store `[scenarioBuy]`. -/
def scenarioBuyResponse : CostBasisResponse :=
  { isin := "IE00B4L5Y983", total_units := 10
    total_cost_without_fees := 1000, total_gains_without_fees := 0
    total_fees := 3/2, transactions_count := 1
    current_value := none, absolute_pl_without_fees := none
    percentage_pl_without_fees := none, absolute_pl_with_fees := none
    percentage_pl_with_fees := none }

/-- A closed-position response used to instantiate the claim theorems:
totals of the BUY 10 @100 / SELL 10 @110 sequence. -/
def closedScenarioCB : CostBasisResponse :=
  { isin := "IE00B4L5Y983", total_units := 0
    total_cost_without_fees := 1000, total_gains_without_fees := 1100
    total_fees := 3, transactions_count := 2
    current_value := none, absolute_pl_without_fees := none
    percentage_pl_without_fees := none, absolute_pl_with_fees := none
    percentage_pl_with_fees := none }

/-- SELL row liquidating the whole BUY 10 position. -/
def scenarioSellAll : Transaction :=
  { id := 2, date := 2, isin := "IE00B4L5Y983", broker := "DEGIRO"
    fee := 3/2, price_per_unit := 110, units := 10
    transaction_type := .SELL }

/-- Transaction store of a full BUY-then-SELL-all cycle. -/
def c2Db : List Transaction := [scenarioBuy, scenarioSellAll]

/-- The `closedScenarioCB` after realized-P/L attachment. -/
def closedScenarioAttached : CostBasisResponse :=
  { closedScenarioCB with
    current_value := some 0
    absolute_pl_without_fees := some 100
    percentage_pl_without_fees := some 10
    absolute_pl_with_fees := some 97
    percentage_pl_with_fees := some (9700/1003) }

/-- BUY of 20 units @100 with fee 3.50, realising the spec's
portfolio-summary scenario (invested 2000, fees 3.50). -/
def c4Tx : Transaction :=
  { id := 1, date := 1, isin := "IE00B4L5Y983", broker := "DEGIRO"
    fee := 7/2, price_per_unit := 100, units := 20
    transaction_type := .BUY }

/-- Store of the portfolio-summary scenario. -/
def c4Db : List Transaction := [c4Tx]

/-- Stored position value 2150 for the scenario instrument. -/
def c4Pvs : List PositionValue := [⟨"IE00B4L5Y983", 2150⟩]

/-- A row of the `user_settings` table (`app/models/user_setting.py`);
`setting_value` is stored as a string. -/
structure UserSetting where
  setting_key : String
  setting_value : String
deriving DecidableEq, Repr

/-- The `EXCHANGE_RATE_KEY` from user_setting_service.py. -/
def EXCHANGE_RATE_KEY : String := "czk_eur_exchange_rate"

/-- The `get_exchange_rate_setting` (user_setting_service.py lines 18-31):
returns the `UserSetting` row itself (or `None`), not its numeric value. -/
def get_exchange_rate_setting (settings : List UserSetting) :
    Option UserSetting :=
  settings.find? (fun s => s.setting_key = EXCHANGE_RATE_KEY)

/-- The expression
`user_setting_service.get_exchange_rate_setting(db) or Decimal("25.00")`
(other_asset_service.py line 170).  In Python every object is truthy, so
when the setting row exists this evaluates to the `UserSetting` ORM object
itself — its string `setting_value` is never converted — and only when the
setting is absent does it evaluate to the Decimal 25.00.  The dynamic type
is kept as a sum. -/
def resolved_exchange_rate (settings : List UserSetting) :
    UserSetting ⊕ ℚ :=
  match get_exchange_rate_setting settings with
  | some s => Sum.inl s
  | none => Sum.inr 25

/-- Python evaluation of `value / exchange_rate` where `exchange_rate`
holds either a `UserSetting` object or a `Decimal`: dividing a `Decimal`
by an ORM object raises `TypeError`. -/
def pyDivDyn (value : ℚ) : UserSetting ⊕ ℚ → Except String ℚ
  | Sum.inl _ => .error "TypeError: unsupported operand for /"
  | Sum.inr rate => pyDiv value rate

/-- A row of the `other_assets` table (`app/models/other_asset.py`). -/
structure OtherAsset where
  id : Int
  asset_type : String
  asset_detail : Option String
  currency : String
  value : ℚ
deriving DecidableEq, Repr

/-- Ordering key of `get_all_other_assets`: asset_type ascending, then
asset_detail ascending with NULL first (SQLite `ORDER BY` semantics). -/
def assetOrderB (a b : OtherAsset) : Bool :=
  if a.asset_type = b.asset_type then
    match a.asset_detail, b.asset_detail with
    | none, _ => true
    | some _, none => false
    | some x, some y => x ≤ y
  else a.asset_type ≤ b.asset_type

/-- The `get_all_other_assets` (other_asset_service.py lines 132-149). -/
def get_all_other_assets (assets : List OtherAsset) : List OtherAsset :=
  List.insertionSort (fun a b => assetOrderB a b = true) assets

/-- The `get_all_other_assets_with_investments`
(other_asset_service.py lines 152-203): resolves the exchange rate,
computes the synthetic `investments` row (id 0) from the portfolio
summary's open holdings, and prepends it to the stored assets. -/
def get_all_other_assets_with_investments (db : List Transaction)
    (pvs : List PositionValue) (other_assets : List OtherAsset)
    (settings : List UserSetting) :
    Except String (List OtherAsset × (UserSetting ⊕ ℚ)) :=
  let exchange_rate := resolved_exchange_rate settings
  match get_portfolio_summary db pvs with
  | .error e => .error e
  | .ok portfolio_summary =>
      let investments_value :=
        (portfolio_summary.holdings.filterMap
          (fun h => h.current_value)).sum
      let investments_asset : OtherAsset :=
        { id := 0, asset_type := "investments", asset_detail := none
          currency := "EUR", value := investments_value }
      .ok (investments_asset :: get_all_other_assets other_assets,
        exchange_rate)

/-- An `AssetSnapshot` object as constructed by `create_snapshot` before
insertion; its `exchange_rate` attribute holds whatever the resolved
dynamic value was. -/
structure AssetSnapshotNew where
  snapshot_date : ℚ
  asset_type : String
  asset_detail : Option String
  currency : String
  value : ℚ
  exchange_rate : UserSetting ⊕ ℚ
  value_eur : ℚ
deriving DecidableEq, Repr

/-- The `SnapshotMetadata` from `app/schemas/asset_snapshot.py`. -/
structure SnapshotMetadata where
  snapshot_date : ℚ
  exchange_rate_used : UserSetting ⊕ ℚ
  total_assets_captured : Nat
  total_value_eur : ℚ
deriving DecidableEq, Repr

/-- The `for asset in assets` loop of `create_snapshot`
(asset_snapshot_service.py lines 50-68): converts each asset to EUR
(dividing by the resolved exchange rate when the currency is CZK) and
accumulates the EUR total. -/
def createSnapshotRows (exchange_rate : UserSetting ⊕ ℚ)
    (snapshot_date : ℚ) :
    List OtherAsset → Except String (List AssetSnapshotNew × ℚ)
  | [] => .ok ([], 0)
  | asset :: rest =>
      match (if asset.currency = "CZK" then pyDivDyn asset.value exchange_rate
             else .ok asset.value) with
      | .error e => .error e
      | .ok value_eur =>
          match createSnapshotRows exchange_rate snapshot_date rest with
          | .error e => .error e
          | .ok (rows, total) =>
              .ok ({ snapshot_date := snapshot_date
                     asset_type := asset.asset_type
                     asset_detail := asset.asset_detail
                     currency := asset.currency
                     value := asset.value
                     exchange_rate := exchange_rate
                     value_eur := value_eur } :: rows,
                   value_eur + total)

/-- The `create_snapshot` (asset_snapshot_service.py lines 25-98); `now` models
`datetime.utcnow()`, used when no timestamp is supplied. -/
def create_snapshot (db : List Transaction) (pvs : List PositionValue)
    (other_assets : List OtherAsset) (settings : List UserSetting)
    (snapshot_datetime : Option ℚ) (now : ℚ) :
    Except String (List AssetSnapshotNew × SnapshotMetadata) :=
  match get_all_other_assets_with_investments db pvs other_assets
      settings with
  | .error e => .error e
  | .ok (assets, exchange_rate) =>
      let snapshot_date := snapshot_datetime.getD now
      match createSnapshotRows exchange_rate snapshot_date assets with
      | .error e => .error e
      | .ok (snapshots, total_value_eur) =>
          .ok (snapshots,
            { snapshot_date := snapshot_date
              exchange_rate_used := exchange_rate
              total_assets_captured := snapshots.length
              total_value_eur := total_value_eur })

/-- The CZK asset of the spec scenario: value 2400.00. -/
def czkAsset : OtherAsset :=
  { id := 1, asset_type := "cd_account", asset_detail := none
    currency := "CZK", value := 2400 }

/-- A stored exchange-rate setting of 24.00. -/
def rate24Setting : UserSetting :=
  { setting_key := "czk_eur_exchange_rate", setting_value := "24.00" }

/-- A persisted row of the `asset_snapshots` table
(`app/models/asset_snapshot.py`); snapshot datetimes are embedded as ℚ
(time measured in days, possibly fractional). -/
structure AssetSnapshot where
  snapshot_date : ℚ
  asset_type : String
  asset_detail : Option String
  currency : String
  value : ℚ
  exchange_rate : ℚ
  value_eur : ℚ
deriving DecidableEq, Repr

/-- The `SnapshotSummary` from `app/schemas/asset_snapshot.py`; the two
breakdowns are key-sorted association lists. -/
structure SnapshotSummary where
  snapshot_date : ℚ
  total_value_eur : ℚ
  exchange_rate_used : ℚ
  by_currency : List (String × ℚ)
  by_asset_type : List (String × ℚ)
  absolute_change_from_oldest : ℚ
  percentage_change_from_oldest : ℚ
deriving DecidableEq, Repr

/-- Grouped sums (the `by_currency`/`by_asset_type` dicts of
`get_snapshot_summaries`, emitted as `sorted(dict.items())`). -/
def groupSum (rows : List AssetSnapshot) (key : AssetSnapshot → String)
    (val : AssetSnapshot → ℚ) : List (String × ℚ) :=
  (List.insertionSort (fun a b : String => a ≤ b)
    (distinctAux [] (rows.map key))).map
    (fun k => (k, ((rows.filter (fun r => key r = k)).map val).sum))

/-- Per-date aggregation of `get_snapshot_summaries`
(asset_snapshot_service.py lines 260-321): total EUR value, the exchange
rate of the date's first row, and the two breakdowns; the change fields
start as the 0/0 placeholders. -/
def mkDateSummary (filtered : List AssetSnapshot) (d : ℚ) :
    SnapshotSummary :=
  let dayRows := filtered.filter (fun r => r.snapshot_date = d)
  { snapshot_date := d
    total_value_eur := (dayRows.map (fun r => r.value_eur)).sum
    exchange_rate_used :=
      ((dayRows.head?).map (fun r => r.exchange_rate)).getD 0
    by_currency := groupSum dayRows (fun r => r.currency) (fun r => r.value)
    by_asset_type :=
      groupSum dayRows (fun r => r.asset_type) (fun r => r.value_eur)
    absolute_change_from_oldest := 0
    percentage_change_from_oldest := 0 }

/-- The `Decimal.quantize(Decimal("0.01"))` — round to 2 decimal places with
the default ROUND_HALF_EVEN (banker's rounding). -/
def quantize2 (x : ℚ) : ℚ :=
  let y := x * 100
  let f := Int.floor y
  let r := y - f
  let n : ℤ :=
    if r < 1/2 then f
    else if 1/2 < r then f + 1
    else if f % 2 = 0 then f else f + 1
  (n : ℚ) / 100

/-- The `avg_monthly_increment` computation of `get_snapshot_summaries`
(asset_snapshot_service.py lines 336-343): 0.00 for fewer than two dates
or a zero day span, else `((latest − oldest) / days) * 30` quantized to
two decimals; the division is Python's raising `Decimal` division. -/
def avg_monthly_increment_calc (summaries_len : Nat) (value_change : ℚ)
    (days_between : Int) : Except String ℚ :=
  if summaries_len ≤ 1 ∨ days_between = 0 then .ok 0
  else
    match pyDiv value_change (days_between : ℚ) with
    | .error e => .error e
    | .ok q => .ok (quantize2 (q * 30))

/-- The `for summary in summaries` update loop of
`get_snapshot_summaries` (asset_snapshot_service.py lines 345-362):
attaches absolute and guarded percentage change from the oldest value. -/
def applyChanges (oldest_value : ℚ) :
    List SnapshotSummary → Except String (List SnapshotSummary)
  | [] => .ok []
  | s :: rest =>
      let absolute_change := s.total_value_eur - oldest_value
      match (if 0 < oldest_value then
          match pyDiv absolute_change oldest_value with
          | .error e => .error e
          | .ok q => .ok (q * 100)
        else .ok 0 : Except String ℚ) with
      | .error e => .error e
      | .ok percentage_change =>
          match applyChanges oldest_value rest with
          | .error e => .error e
          | .ok rest' =>
              .ok ({ s with
                absolute_change_from_oldest := absolute_change
                percentage_change_from_oldest := percentage_change } :: rest')

/-- The date-range filter of `get_snapshot_summaries`
(asset_snapshot_service.py lines 237-240). -/
def snapFiltered (rows : List AssetSnapshot)
    (start_date end_date : Option ℚ) : List AssetSnapshot :=
  let f1 : List AssetSnapshot :=
    match start_date with
    | some d => rows.filter (fun r => d ≤ r.snapshot_date)
    | none => rows
  match end_date with
  | some d => f1.filter (fun r => r.snapshot_date ≤ d)
  | none => f1

/-- The `get_snapshot_summaries` (asset_snapshot_service.py lines 206-378):
filter by inclusive date range, group by distinct snapshot date sorted
descending, then attach trend statistics against the oldest returned date;
`timedelta.days` is the floor of the day difference. -/
def get_snapshot_summaries (rows : List AssetSnapshot)
    (start_date end_date : Option ℚ) :
    Except String (List SnapshotSummary × ℚ) :=
  let filtered := snapFiltered rows start_date end_date
  if filtered.isEmpty then .ok ([], 0)
  else
    let dates := List.insertionSort (fun a b : ℚ => b ≤ a)
      (distinctAux [] (filtered.map (fun r => r.snapshot_date)))
    let summaries := dates.map (mkDateSummary filtered)
    match summaries with
    | [] => .ok ([], 0)
    | latest :: rest =>
        let oldest := rest.getLastD latest
        let oldest_value := oldest.total_value_eur
        let days_between : Int :=
          Int.floor (latest.snapshot_date - oldest.snapshot_date)
        match avg_monthly_increment_calc (latest :: rest).length
            (latest.total_value_eur - oldest_value) days_between with
        | .error e => .error e
        | .ok avg_monthly_increment =>
            match applyChanges oldest_value (latest :: rest) with
            | .error e => .error e
            | .ok summaries' => .ok (summaries', avg_monthly_increment)

/-- The per-summary trend update applied by `applyChanges` (the loop body
of asset_snapshot_service.py lines 345-362, with the guarded division in
closed form). -/
def updOldest (oldest_value : ℚ) (s : SnapshotSummary) : SnapshotSummary :=
  { s with
    absolute_change_from_oldest := s.total_value_eur - oldest_value
    percentage_change_from_oldest :=
      specGuardedPct (s.total_value_eur - oldest_value) oldest_value }

instance : IsTotal ℚ (fun a b : ℚ => b ≤ a) := ⟨fun a b => le_total b a⟩

instance : IsTrans ℚ (fun a b : ℚ => b ≤ a) :=
  ⟨fun _ _ _ hab hbc => le_trans hbc hab⟩

/-- Snapshot row: the whole portfolio worth 150 EUR on day 10. -/
def snapRow1 : AssetSnapshot :=
  { snapshot_date := 10, asset_type := "investments", asset_detail := none
    currency := "EUR", value := 150, exchange_rate := 25, value_eur := 150 }

/-- Snapshot row: the whole portfolio worth 100 EUR on day 0. -/
def snapRow2 : AssetSnapshot :=
  { snapshot_date := 0, asset_type := "investments", asset_detail := none
    currency := "EUR", value := 100, exchange_rate := 25, value_eur := 100 }

/-- Two-date snapshot store. -/
def snapDb : List AssetSnapshot := [snapRow1, snapRow2]

/-- Expected summary for day 10 (newest). -/
def snapSum10 : SnapshotSummary :=
  { snapshot_date := 10, total_value_eur := 150, exchange_rate_used := 25
    by_currency := [("EUR", 150)], by_asset_type := [("investments", 150)]
    absolute_change_from_oldest := 50
    percentage_change_from_oldest := 50 }

/-- Expected summary for day 0 (oldest, the baseline). -/
def snapSum0 : SnapshotSummary :=
  { snapshot_date := 0, total_value_eur := 100, exchange_rate_used := 25
    by_currency := [("EUR", 100)], by_asset_type := [("investments", 100)]
    absolute_change_from_oldest := 0
    percentage_change_from_oldest := 0 }

/-- The persistent store seen by the transaction service: the
`transactions` and `position_values` tables. -/
structure Store where
  transactions : List Transaction
  position_values : List PositionValue
deriving DecidableEq, Repr

/-- The `get_position_value` (position_value_service.py lines 85-108): lookup
by uppercased ISIN, raising `PositionValueNotFoundError` when absent. -/
def get_position_value (s : Store) (isin : String) :
    Except String PositionValue :=
  match s.position_values.find? (fun pv => pv.isin = pyUpper isin) with
  | none => .error "PositionValueNotFoundError"
  | some pv => .ok pv

/-- The `delete_position_value` (position_value_service.py lines 123-150):
fetch (raising `PositionValueNotFoundError` when absent), then delete and
commit.  This raise is the function's only failure mode. -/
def delete_position_value (s : Store) (isin : String) :
    Except String Store :=
  match get_position_value s isin with
  | .error e => .error e
  | .ok pv =>
      .ok { s with position_values := s.position_values.erase pv }

/-- The `_cleanup_position_value_for_closed_position`
(transaction_service.py lines 288-320).  The whole body sits in a
`try/except Exception` that logs and swallows *any* failure; `fault`
injects an arbitrary exception raised inside the try block (e.g. a
database error), `none` meaning normal execution.  The inner
`except PositionValueNotFoundError: pass` covers every error
`delete_position_value` can itself raise. -/
def cleanup_position_value_for_closed_position (s : Store) (isin : String)
    (fault : Option String) : Store :=
  let body : Except String Store :=
    match fault with
    | some e => .error e
    | none =>
        match calculate_cost_basis s.transactions isin none with
        | none => .ok s
        | some cost_basis =>
            if cost_basis.total_units = 0 then
              match delete_position_value s isin with
              | .error _ => .ok s
              | .ok s' => .ok s'
            else .ok s
  match body with
  | .ok s' => s'
  | .error _ => s

/-- The `create_transaction` (transaction_service.py lines 22-54): insert and
return the row; no cleanup step runs here. -/
def create_transaction (s : Store) (transaction_data : Transaction) :
    Transaction × Store :=
  (transaction_data,
    { s with transactions := s.transactions ++ [transaction_data] })

/-- The `get_transaction` (transaction_service.py lines 57-76). -/
def get_transaction (s : Store) (transaction_id : Int) :
    Except String Transaction :=
  match s.transactions.find? (fun t => t.id = transaction_id) with
  | none => .error "TransactionNotFoundError"
  | some t => .ok t

/-- The `TransactionUpdate` (`app/schemas/transaction.py`): all fields
optional; only the set ones are applied. -/
structure TransactionUpdate where
  date : Option Int
  isin : Option String
  broker : Option String
  fee : Option ℚ
  price_per_unit : Option ℚ
  units : Option ℚ
  transaction_type : Option TransactionType
deriving DecidableEq, Repr

/-- The `for field, value in update_dict.items(): setattr(...)` loop of
`update_transaction` (transaction_service.py lines 175-177). -/
def applyUpdate (t : Transaction) (u : TransactionUpdate) : Transaction :=
  { t with
    date := u.date.getD t.date
    isin := u.isin.getD t.isin
    broker := u.broker.getD t.broker
    fee := u.fee.getD t.fee
    price_per_unit := u.price_per_unit.getD t.price_per_unit
    units := u.units.getD t.units
    transaction_type := u.transaction_type.getD t.transaction_type }

/-- In-place mutation of the first row matching the id (the ORM object
returned by `.first()`). -/
def replaceFirst : List Transaction → Int → Transaction → List Transaction
  | [], _, _ => []
  | t :: ts, tid, t' =>
      if t.id = tid then t' :: ts else t :: replaceFirst ts tid t'

/-- The `update_transaction` (transaction_service.py lines 139-228): update the
row, then run the closed-position cleanup on the current (and, when the
ISIN changed, the original) instrument, then the reopened-position cleanup
with its `except PositionValueNotFoundError: pass`. -/
def update_transaction (s : Store) (transaction_id : Int)
    (update_data : TransactionUpdate) (fault1 fault2 : Option String) :
    Except String (Transaction × Store) :=
  match get_transaction s transaction_id with
  | .error e => .error e
  | .ok transaction =>
      let original_isin := transaction.isin
      let units_before : ℚ :=
        match calculate_cost_basis s.transactions original_isin none with
        | some cb => cb.total_units
        | none => 0
      let transaction' := applyUpdate transaction update_data
      let s1 : Store := { s with
        transactions := replaceFirst s.transactions transaction_id
          transaction' }
      let isin_changed := transaction'.isin ≠ original_isin
      let s2 := cleanup_position_value_for_closed_position s1
        transaction'.isin fault1
      let s3 := if isin_changed then
          cleanup_position_value_for_closed_position s2 original_isin fault2
        else s2
      let s4 :=
        if units_before = 0 then
          let units_after : ℚ :=
            match calculate_cost_basis s3.transactions transaction'.isin
                none with
            | some cb => cb.total_units
            | none => 0
          if 0 < units_after then
            match delete_position_value s3 transaction'.isin with
            | .error _ => s3
            | .ok s' => s'
          else s3
        else s3
      .ok (transaction', s4)

/-- The `delete_transaction` (transaction_service.py lines 231-285): delete the
row, then run the closed-position cleanup and the reopened-position
cleanup. -/
def delete_transaction (s : Store) (transaction_id : Int)
    (fault : Option String) : Except String Store :=
  match get_transaction s transaction_id with
  | .error e => .error e
  | .ok transaction =>
      let isin_to_check := transaction.isin
      let units_before : ℚ :=
        match calculate_cost_basis s.transactions isin_to_check none with
        | some cb => cb.total_units
        | none => 0
      let s1 : Store := { s with
        transactions := s.transactions.erase transaction }
      let s2 := cleanup_position_value_for_closed_position s1
        isin_to_check fault
      let s3 :=
        if units_before = 0 then
          let units_after : ℚ :=
            match calculate_cost_basis s2.transactions isin_to_check
                none with
            | some cb => cb.total_units
            | none => 0
          if 0 < units_after then
            match delete_position_value s2 isin_to_check with
            | .error _ => s2
            | .ok s' => s'
          else s2
        else s2
      .ok s3

/-- Store used to instantiate the mutation theorems. -/
def c9Store : Store :=
  { transactions := [scenarioBuy]
    position_values := [⟨"IE00B4L5Y983", 1100⟩] }

/-- An update that sets no field. -/
def c9Upd : TransactionUpdate :=
  ⟨none, none, none, none, none, none, none⟩

lemma char_ofNat_toNat {n : Nat} (h : n.isValidChar) :
    (Char.ofNat n).toNat = n := by
  simp only [Char.ofNat, h, dif_pos, Char.ofNatAux, Char.toNat]
  simp [UInt32.toNat, BitVec.toNat_ofNatLt]

lemma char_toUpper_idem (c : Char) : c.toUpper.toUpper = c.toUpper := by
  unfold Char.toUpper
  by_cases h : c.toNat ≥ 97 ∧ c.toNat ≤ 122
  · have hv : (c.toNat - 32).isValidChar := by
      left; omega
    have ht : (Char.ofNat (c.toNat - 32)).toNat = c.toNat - 32 :=
      char_ofNat_toNat hv
    simp only [if_pos h, ht]
    rw [if_neg (by omega)]
  · simp [h]

lemma pyUpper_idem (s : String) : pyUpper (pyUpper s) = pyUpper s := by
  simp only [pyUpper, List.map_map]
  congr 1
  apply List.map_congr_left
  intro c _
  exact char_toUpper_idem c

lemma costBasisStep_foldl (init : CostBasisAcc) (ts : List Transaction) :
    ts.foldl costBasisStep init =
      { total_units := init.total_units
          + (((ts.filter (fun t => t.transaction_type = .BUY)).map
              (fun t => t.units)).sum
            - ((ts.filter (fun t => t.transaction_type = .SELL)).map
              (fun t => t.units)).sum)
        sum_costs_without_fees := init.sum_costs_without_fees
          + ((ts.filter (fun t => t.transaction_type = .BUY)).map
              (fun t => t.price_per_unit * t.units)).sum
        sum_gains_without_fees := init.sum_gains_without_fees
          + ((ts.filter (fun t => t.transaction_type = .SELL)).map
              (fun t => t.price_per_unit * t.units)).sum
        total_fees := init.total_fees + (ts.map (fun t => t.fee)).sum
        transaction_count := init.transaction_count + ts.length } := by
  induction ts generalizing init with
  | nil => simp
  | cons t ts ih =>
      cases htype : t.transaction_type <;>
        simp [costBasisStep, htype, ih, List.filter_cons, add_comm,
          add_assoc, add_left_comm, mul_comm] <;> ring

/-- C1: the single forward pass of `calculate_cost_basis` accumulates, for
every transaction list: BUY rows add their units and price×units to the
unit and cost totals, SELL rows subtract units and add price×units to the
gains total, every row's fee accumulates, and the transaction count is the
number of rows; on the concrete BUY 10 @100 fee 1.50 / SELL 3 @110 fee 1.50
scenario the totals are 1000, 330, 3 and 7. -/
theorem cost_basis_forward_pass (ts : List Transaction) :
    ((costBasisFold ts).total_units =
        ((ts.filter (fun t => t.transaction_type = .BUY)).map
            (fun t => t.units)).sum
          - ((ts.filter (fun t => t.transaction_type = .SELL)).map
            (fun t => t.units)).sum
      ∧ (costBasisFold ts).sum_costs_without_fees =
        ((ts.filter (fun t => t.transaction_type = .BUY)).map
            (fun t => t.price_per_unit * t.units)).sum
      ∧ (costBasisFold ts).sum_gains_without_fees =
        ((ts.filter (fun t => t.transaction_type = .SELL)).map
            (fun t => t.price_per_unit * t.units)).sum
      ∧ (costBasisFold ts).total_fees = (ts.map (fun t => t.fee)).sum
      ∧ (costBasisFold ts).transaction_count = ts.length)
    ∧ (costBasisFold [scenarioBuy, scenarioSell]).sum_costs_without_fees
        = 1000
    ∧ (costBasisFold [scenarioBuy, scenarioSell]).sum_gains_without_fees
        = 330
    ∧ (costBasisFold [scenarioBuy, scenarioSell]).total_fees = 3
    ∧ (costBasisFold [scenarioBuy, scenarioSell]).total_units = 7 := by
  have hconc :
      costBasisFold [scenarioBuy, scenarioSell] = ⟨7, 1000, 330, 3, 2⟩ := by
    norm_num [costBasisFold, costBasisStep, scenarioBuy, scenarioSell]
  refine ⟨?_, by rw [hconc], by rw [hconc], by rw [hconc], by rw [hconc]⟩
  have h := costBasisStep_foldl ⟨0, 0, 0, 0, 0⟩ ts
  rw [costBasisFold, h]
  refine ⟨by simp, by simp, by simp, by simp, by simp⟩

lemma costBasisFold_count (ts : List Transaction) :
    (costBasisFold ts).transaction_count = ts.length := by
  rw [costBasisFold, costBasisStep_foldl]
  simp

lemma queryTransactions_pyUpper (db : List Transaction) (isin : String)
    (as_of_date : Option Int) :
    queryTransactions db (pyUpper isin) as_of_date =
      queryTransactions db isin as_of_date := by
  simp only [queryTransactions, pyUpper_idem]

/-- C3: an instrument with zero transactions (after any as-of-date cutoff)
yields the absent sentinel `none`, never a zero-valued response; a returned
response always counts the instrument's transactions, so a closed position
is a zero-total result with positive `transactions_count`. -/
theorem cost_basis_absent_sentinel (db : List Transaction) (isin : String)
    (as_of_date : Option Int) :
    (calculate_cost_basis db isin as_of_date = none ↔
      queryTransactions db isin as_of_date = [])
    ∧ ∀ r, calculate_cost_basis db isin as_of_date = some r →
        r.transactions_count = (queryTransactions db isin as_of_date).length
        ∧ 0 < r.transactions_count := by
  by_cases h : (queryTransactions db isin as_of_date).isEmpty
  · have hnil : queryTransactions db isin as_of_date = [] := by
      simpa using h
    constructor
    · simp [calculate_cost_basis, h, hnil]
    · intro r hr
      simp [calculate_cost_basis, h] at hr
  · have hne : queryTransactions db isin as_of_date ≠ [] := by
      simpa using h
    constructor
    · simp [calculate_cost_basis, h, hne]
    · intro r hr
      simp only [calculate_cost_basis, h, Bool.false_eq_true, if_false,
        Option.some.injEq] at hr
      subst hr
      refine ⟨costBasisFold_count _, ?_⟩
      rw [costBasisFold_count]
      exact List.length_pos.mpr hne

theorem cost_basis_absent_sentinel_witness :
    calculate_cost_basis [scenarioBuy] "IE00B4L5Y983" none
        = some scenarioBuyResponse
    ∧ scenarioBuyResponse.transactions_count
        = (queryTransactions [scenarioBuy] "IE00B4L5Y983" none).length
    ∧ 0 < scenarioBuyResponse.transactions_count := by
  have hup : pyUpper "IE00B4L5Y983" = "IE00B4L5Y983" := by decide
  have heval : calculate_cost_basis [scenarioBuy] "IE00B4L5Y983" none
      = some scenarioBuyResponse := by
    norm_num [calculate_cost_basis, queryTransactions, costBasisFold,
      costBasisStep, scenarioBuy, scenarioBuyResponse, hup,
      List.insertionSort, List.orderedInsert]
  exact ⟨heval,
    (cost_basis_absent_sentinel [scenarioBuy] "IE00B4L5Y983" none).2
      scenarioBuyResponse heval⟩

/-- C10: `calculate_cost_basis` is case-insensitive in its ISIN argument —
the result for `isin` equals the result for `isin.upper()` — and any
returned response carries the uppercased input as its `isin` field. -/
theorem cost_basis_case_insensitive (db : List Transaction) (isin : String)
    (as_of_date : Option Int) :
    calculate_cost_basis db isin as_of_date
        = calculate_cost_basis db (pyUpper isin) as_of_date
    ∧ ∀ r, calculate_cost_basis db isin as_of_date = some r →
        r.isin = pyUpper isin := by
  constructor
  · simp only [calculate_cost_basis, queryTransactions, pyUpper_idem]
  · intro r hr
    by_cases h : (queryTransactions db isin as_of_date).isEmpty
    · simp [calculate_cost_basis, h] at hr
    · simp only [calculate_cost_basis, h, Bool.false_eq_true, if_false,
        Option.some.injEq] at hr
      subst hr
      rfl

theorem cost_basis_case_insensitive_witness :
    calculate_cost_basis [scenarioBuy] "ie00b4l5y983" none
        = calculate_cost_basis [scenarioBuy] (pyUpper "ie00b4l5y983") none
    ∧ scenarioBuyResponse.isin = pyUpper "ie00b4l5y983" := by
  have hup : pyUpper "ie00b4l5y983" = "IE00B4L5Y983" := by decide
  have heval : calculate_cost_basis [scenarioBuy] "ie00b4l5y983" none
      = some scenarioBuyResponse := by
    norm_num [calculate_cost_basis, queryTransactions, costBasisFold,
      costBasisStep, scenarioBuy, scenarioBuyResponse, hup,
      List.insertionSort, List.orderedInsert]
  exact ⟨(cost_basis_case_insensitive [scenarioBuy] "ie00b4l5y983" none).1,
    (cost_basis_case_insensitive [scenarioBuy] "ie00b4l5y983" none).2
      scenarioBuyResponse heval⟩

lemma guardedPctDiv_eq (a d : ℚ) :
    guardedPctDiv a d = .ok (specGuardedPct a d) := by
  unfold guardedPctDiv specGuardedPct pyDiv
  by_cases h : 0 < d
  · simp [h, ne_of_gt h]
  · simp [h]

lemma closed_position_realized_pl_of_zero (cb : CostBasisResponse)
    (h : cb.total_units = 0) :
    closed_position_realized_pl cb = .ok { cb with
      current_value := some 0
      absolute_pl_without_fees :=
        some (cb.total_gains_without_fees - cb.total_cost_without_fees)
      percentage_pl_without_fees :=
        some (specGuardedPct
          (cb.total_gains_without_fees - cb.total_cost_without_fees)
          cb.total_cost_without_fees)
      absolute_pl_with_fees :=
        some (cb.total_gains_without_fees - cb.total_cost_without_fees
          - cb.total_fees)
      percentage_pl_with_fees :=
        some (specGuardedPct
          (cb.total_gains_without_fees - cb.total_cost_without_fees
            - cb.total_fees)
          (cb.total_cost_without_fees + cb.total_fees)) } := by
  simp [closed_position_realized_pl, h, guardedPctDiv_eq]

lemma closed_position_realized_pl_of_ne (cb : CostBasisResponse)
    (h : cb.total_units ≠ 0) :
    closed_position_realized_pl cb = .ok cb := by
  simp [closed_position_realized_pl, h]

lemma attach_profit_loss_some_pos (cb : CostBasisResponse) (cv : ℚ)
    (h : 0 < cb.total_units) :
    attach_profit_loss cb (some cv) = .ok { cb with
      current_value := some cv
      absolute_pl_without_fees :=
        some (cv - (cb.total_cost_without_fees
          - cb.total_gains_without_fees))
      percentage_pl_without_fees :=
        some (specGuardedPct
          (cv - (cb.total_cost_without_fees - cb.total_gains_without_fees))
          (cb.total_cost_without_fees - cb.total_gains_without_fees))
      absolute_pl_with_fees :=
        some (cv - (cb.total_cost_without_fees
          - cb.total_gains_without_fees + cb.total_fees))
      percentage_pl_with_fees :=
        some (specGuardedPct
          (cv - (cb.total_cost_without_fees - cb.total_gains_without_fees
            + cb.total_fees))
          (cb.total_cost_without_fees - cb.total_gains_without_fees
            + cb.total_fees)) } := by
  simp [attach_profit_loss, h, guardedPctDiv_eq]

lemma attach_profit_loss_none (cb : CostBasisResponse) :
    attach_profit_loss cb none = closed_position_realized_pl cb := rfl

lemma attach_profit_loss_some_nonpos (cb : CostBasisResponse) (cv : ℚ)
    (h : ¬ 0 < cb.total_units) :
    attach_profit_loss cb (some cv) = closed_position_realized_pl cb := by
  simp [attach_profit_loss, h]

/-- The `attach_profit_loss` never fails and only fills in the P/L fields: the
accumulated totals pass through unchanged. -/
lemma attach_profit_loss_ok (cb : CostBasisResponse) (cv? : Option ℚ) :
    ∃ r, attach_profit_loss cb cv? = .ok r
      ∧ r.isin = cb.isin
      ∧ r.total_units = cb.total_units
      ∧ r.total_cost_without_fees = cb.total_cost_without_fees
      ∧ r.total_gains_without_fees = cb.total_gains_without_fees
      ∧ r.total_fees = cb.total_fees
      ∧ r.transactions_count = cb.transactions_count := by
  have hclosed : ∃ r, closed_position_realized_pl cb = .ok r
      ∧ r.isin = cb.isin
      ∧ r.total_units = cb.total_units
      ∧ r.total_cost_without_fees = cb.total_cost_without_fees
      ∧ r.total_gains_without_fees = cb.total_gains_without_fees
      ∧ r.total_fees = cb.total_fees
      ∧ r.transactions_count = cb.transactions_count := by
    by_cases hz : cb.total_units = 0
    · exact ⟨_, closed_position_realized_pl_of_zero cb hz,
        rfl, rfl, rfl, rfl, rfl, rfl⟩
    · exact ⟨cb, closed_position_realized_pl_of_ne cb hz,
        rfl, rfl, rfl, rfl, rfl, rfl⟩
  match cv? with
  | none => exact hclosed
  | some cv =>
      by_cases hpos : 0 < cb.total_units
      · exact ⟨_, attach_profit_loss_some_pos cb cv hpos,
          rfl, rfl, rfl, rfl, rfl, rfl⟩
      · rw [attach_profit_loss_some_nonpos cb cv hpos]
        exact hclosed

/-- C5: P/L attachment never raises a division error, and in both the
open-holding and the closed-position branch every percentage field is the
corresponding absolute P/L divided by its cost denominator times 100 when
that denominator is strictly positive, and exactly 0 when the denominator
is ≤ 0 (the formula `specGuardedPct`). -/
theorem attach_profit_loss_guarded (cb : CostBasisResponse)
    (cv? : Option ℚ) :
    (∃ r, attach_profit_loss cb cv? = .ok r)
    ∧ (∀ cv r, cv? = some cv → 0 < cb.total_units →
        attach_profit_loss cb cv? = .ok r →
        r.absolute_pl_without_fees =
          some (cv - (cb.total_cost_without_fees
            - cb.total_gains_without_fees))
        ∧ r.percentage_pl_without_fees =
          some (specGuardedPct
            (cv - (cb.total_cost_without_fees
              - cb.total_gains_without_fees))
            (cb.total_cost_without_fees - cb.total_gains_without_fees))
        ∧ r.absolute_pl_with_fees =
          some (cv - (cb.total_cost_without_fees
            - cb.total_gains_without_fees + cb.total_fees))
        ∧ r.percentage_pl_with_fees =
          some (specGuardedPct
            (cv - (cb.total_cost_without_fees - cb.total_gains_without_fees
              + cb.total_fees))
            (cb.total_cost_without_fees - cb.total_gains_without_fees
              + cb.total_fees)))
    ∧ (∀ r, (cv? = none ∨ ¬ 0 < cb.total_units) → cb.total_units = 0 →
        attach_profit_loss cb cv? = .ok r →
        r.absolute_pl_without_fees =
          some (cb.total_gains_without_fees - cb.total_cost_without_fees)
        ∧ r.percentage_pl_without_fees =
          some (specGuardedPct
            (cb.total_gains_without_fees - cb.total_cost_without_fees)
            cb.total_cost_without_fees)
        ∧ r.absolute_pl_with_fees =
          some (cb.total_gains_without_fees - cb.total_cost_without_fees
            - cb.total_fees)
        ∧ r.percentage_pl_with_fees =
          some (specGuardedPct
            (cb.total_gains_without_fees - cb.total_cost_without_fees
              - cb.total_fees)
            (cb.total_cost_without_fees + cb.total_fees))) := by
  refine ⟨?_, ?_, ?_⟩
  · obtain ⟨r, hr, -⟩ := attach_profit_loss_ok cb cv?
    exact ⟨r, hr⟩
  · intro cv r hcv hpos hr
    subst hcv
    rw [attach_profit_loss_some_pos cb cv hpos] at hr
    injection hr with hr
    subst hr
    exact ⟨rfl, rfl, rfl, rfl⟩
  · intro r hbranch hz hr
    have hcl : closed_position_realized_pl cb = .ok r := by
      rcases hbranch with hnone | hnpos
      · rw [hnone] at hr
        exact hr
      · match cv?, hr with
        | none, hr => exact hr
        | some cv, hr =>
            rw [attach_profit_loss_some_nonpos cb cv hnpos] at hr
            exact hr
    rw [closed_position_realized_pl_of_zero cb hz] at hcl
    injection hcl with hcl
    subst hcl
    exact ⟨rfl, rfl, rfl, rfl⟩

theorem attach_profit_loss_guarded_witness :
    (∃ r, attach_profit_loss scenarioBuyResponse (some 1100) = .ok r)
    ∧ ((0:ℚ) < 10)
    ∧ (∀ r, attach_profit_loss scenarioBuyResponse (some 1100) = .ok r →
        r.percentage_pl_without_fees = some 10)
    ∧ (∀ r, attach_profit_loss closedScenarioCB none = .ok r →
        r.percentage_pl_with_fees = some (9700/1003)) := by
  have hthm := attach_profit_loss_guarded scenarioBuyResponse (some 1100)
  have hthm' := attach_profit_loss_guarded closedScenarioCB none
  refine ⟨hthm.1, by norm_num, ?_, ?_⟩
  · intro r hr
    have hpos : (0:ℚ) < scenarioBuyResponse.total_units := by
      norm_num [scenarioBuyResponse]
    have h := (hthm.2.1 1100 r rfl hpos hr).2.1
    rw [h]
    norm_num [scenarioBuyResponse, specGuardedPct]
  · intro r hr
    have hz : closedScenarioCB.total_units = 0 := rfl
    have h := (hthm'.2.2 r (Or.inl rfl) hz hr).2.2.2
    rw [h]
    norm_num [closedScenarioCB, specGuardedPct]

lemma mem_distinctAux {α : Type} [DecidableEq α] (l : List α) :
    ∀ (seen : List α) (y : α),
      y ∈ distinctAux seen l ↔ (y ∈ l ∧ y ∉ seen) := by
  induction l with
  | nil => intro seen y; simp [distinctAux]
  | cons x xs ih =>
      intro seen y
      by_cases hx : x ∈ seen
      · rw [distinctAux, if_pos hx, ih]
        constructor
        · rintro ⟨hy, hns⟩
          exact ⟨List.mem_cons_of_mem _ hy, hns⟩
        · rintro ⟨hy, hns⟩
          rcases List.mem_cons.mp hy with rfl | hy
          · exact absurd hx hns
          · exact ⟨hy, hns⟩
      · rw [distinctAux, if_neg hx]
        constructor
        · intro hy
          rcases List.mem_cons.mp hy with rfl | hy
          · exact ⟨List.mem_cons_self _ _, hx⟩
          · obtain ⟨hyx, hns⟩ := (ih _ _).mp hy
            have hyne : y ∉ (x :: seen) := hns
            exact ⟨List.mem_cons_of_mem _ hyx,
              fun hc => hyne (List.mem_cons_of_mem _ hc)⟩
        · rintro ⟨hy, hns⟩
          rcases List.mem_cons.mp hy with rfl | hy
          · exact List.mem_cons_self _ _
          · by_cases hyx : y = x
            · subst hyx; exact List.mem_cons_self _ _
            · refine List.mem_cons_of_mem _ ((ih _ _).mpr ⟨hy, ?_⟩)
              intro hc
              rcases List.mem_cons.mp hc with h1 | h1
              · exact hyx h1
              · exact hns h1

lemma mem_distinctIsins (db : List Transaction) (y : String) :
    y ∈ distinctIsins db ↔ y ∈ db.map (fun t => t.isin) := by
  rw [distinctIsins, mem_distinctAux]
  simp

lemma classifyGo_ok (db : List Transaction) (pvMap : String → Option ℚ) :
    ∀ (isins : List String) (h0 c0 : List CostBasisResponse),
      ∃ hc, classifyGo db pvMap isins h0 c0 = .ok hc := by
  intro isins
  induction isins with
  | nil => intro h0 c0; exact ⟨(h0, c0), rfl⟩
  | cons i rest ih =>
      intro h0 c0
      rw [classifyGo]
      cases hcalc : calculate_cost_basis db i none with
      | none => dsimp only; exact ih h0 c0
      | some cb0 =>
          obtain ⟨r0, hr0, -⟩ :=
            attach_profit_loss_ok cb0 (pvMap (pyUpper i))
          dsimp only
          rw [hr0]
          dsimp only
          by_cases hpos : 0 < r0.total_units
          · rw [if_pos hpos]; exact ih _ _
          · rw [if_neg hpos]
            by_cases hz : r0.total_units = 0
            · rw [if_pos hz]; exact ih _ _
            · rw [if_neg hz]; exact ih _ _

/-- Membership characterisation of the two result lists of the classifier
loop, for arbitrary starting accumulators. -/
lemma classifyGo_mem (db : List Transaction) (pvMap : String → Option ℚ) :
    ∀ (isins : List String) (h0 c0 h c : List CostBasisResponse),
      classifyGo db pvMap isins h0 c0 = .ok (h, c) →
      (∀ r, r ∈ h ↔ (r ∈ h0 ∨ ∃ i ∈ isins, ∃ cb,
          calculate_cost_basis db i none = some cb
          ∧ attach_profit_loss cb (pvMap (pyUpper i)) = .ok r
          ∧ 0 < r.total_units))
      ∧ (∀ r, r ∈ c ↔ (r ∈ c0 ∨ ∃ i ∈ isins, ∃ cb,
          calculate_cost_basis db i none = some cb
          ∧ attach_profit_loss cb (pvMap (pyUpper i)) = .ok r
          ∧ r.total_units = 0)) := by
  intro isins
  induction isins with
  | nil =>
      intro h0 c0 h c hcl
      rw [classifyGo] at hcl
      injection hcl with hcl
      injection hcl with h1 h2
      subst h1
      subst h2
      constructor <;> intro r <;> simp
  | cons i rest ih =>
      intro h0 c0 h c hcl
      rw [classifyGo] at hcl
      cases hcalc : calculate_cost_basis db i none with
      | none =>
          rw [hcalc] at hcl
          dsimp only at hcl
          obtain ⟨hmh, hmc⟩ := ih h0 c0 h c hcl
          constructor
          · intro r
            rw [hmh]
            constructor
            · rintro (hr | ⟨j, hj, cb, hcb, hat, hu⟩)
              · exact Or.inl hr
              · exact Or.inr ⟨j, List.mem_cons_of_mem _ hj, cb, hcb, hat, hu⟩
            · rintro (hr | ⟨j, hj, cb, hcb, hat, hu⟩)
              · exact Or.inl hr
              · rcases List.mem_cons.mp hj with rfl | hj
                · rw [hcalc] at hcb; cases hcb
                · exact Or.inr ⟨j, hj, cb, hcb, hat, hu⟩
          · intro r
            rw [hmc]
            constructor
            · rintro (hr | ⟨j, hj, cb, hcb, hat, hu⟩)
              · exact Or.inl hr
              · exact Or.inr ⟨j, List.mem_cons_of_mem _ hj, cb, hcb, hat, hu⟩
            · rintro (hr | ⟨j, hj, cb, hcb, hat, hu⟩)
              · exact Or.inl hr
              · rcases List.mem_cons.mp hj with rfl | hj
                · rw [hcalc] at hcb; cases hcb
                · exact Or.inr ⟨j, hj, cb, hcb, hat, hu⟩
      | some cb0 =>
          rw [hcalc] at hcl
          dsimp only at hcl
          obtain ⟨r0, hr0, -⟩ :=
            attach_profit_loss_ok cb0 (pvMap (pyUpper i))
          rw [hr0] at hcl
          dsimp only at hcl
          have hdet : ∀ cb r, calculate_cost_basis db i none = some cb →
              attach_profit_loss cb (pvMap (pyUpper i)) = .ok r →
              r = r0 := by
            intro cb r hcb hat
            rw [hcalc] at hcb
            injection hcb with hcb
            subst hcb
            rw [hr0] at hat
            injection hat with hat
            exact hat.symm
          by_cases hpos : 0 < r0.total_units
          · rw [if_pos hpos] at hcl
            obtain ⟨hmh, hmc⟩ := ih (h0 ++ [r0]) c0 h c hcl
            constructor
            · intro r
              rw [hmh]
              constructor
              · rintro (hr | ⟨j, hj, cb, hcb, hat, hu⟩)
                · rcases List.mem_append.mp hr with hr | hr
                  · exact Or.inl hr
                  · have : r = r0 := List.mem_singleton.mp hr
                    subst this
                    exact Or.inr ⟨i, List.mem_cons_self _ _, cb0, hcalc,
                      hr0, hpos⟩
                · exact Or.inr
                    ⟨j, List.mem_cons_of_mem _ hj, cb, hcb, hat, hu⟩
              · rintro (hr | ⟨j, hj, cb, hcb, hat, hu⟩)
                · exact Or.inl (List.mem_append.mpr (Or.inl hr))
                · rcases List.mem_cons.mp hj with rfl | hj
                  · have := hdet cb r hcb hat
                    subst this
                    exact Or.inl (List.mem_append.mpr
                      (Or.inr (List.mem_singleton.mpr rfl)))
                  · exact Or.inr ⟨j, hj, cb, hcb, hat, hu⟩
            · intro r
              rw [hmc]
              constructor
              · rintro (hr | ⟨j, hj, cb, hcb, hat, hu⟩)
                · exact Or.inl hr
                · exact Or.inr
                    ⟨j, List.mem_cons_of_mem _ hj, cb, hcb, hat, hu⟩
              · rintro (hr | ⟨j, hj, cb, hcb, hat, hu⟩)
                · exact Or.inl hr
                · rcases List.mem_cons.mp hj with rfl | hj
                  · have := hdet cb r hcb hat
                    subst this
                    rw [hu] at hpos
                    exact absurd hpos (lt_irrefl 0)
                  · exact Or.inr ⟨j, hj, cb, hcb, hat, hu⟩
          · rw [if_neg hpos] at hcl
            by_cases hz : r0.total_units = 0
            · rw [if_pos hz] at hcl
              obtain ⟨hmh, hmc⟩ := ih h0 (c0 ++ [r0]) h c hcl
              constructor
              · intro r
                rw [hmh]
                constructor
                · rintro (hr | ⟨j, hj, cb, hcb, hat, hu⟩)
                  · exact Or.inl hr
                  · exact Or.inr
                      ⟨j, List.mem_cons_of_mem _ hj, cb, hcb, hat, hu⟩
                · rintro (hr | ⟨j, hj, cb, hcb, hat, hu⟩)
                  · exact Or.inl hr
                  · rcases List.mem_cons.mp hj with rfl | hj
                    · have := hdet cb r hcb hat
                      subst this
                      exact absurd hu hpos
                    · exact Or.inr ⟨j, hj, cb, hcb, hat, hu⟩
              · intro r
                rw [hmc]
                constructor
                · rintro (hr | ⟨j, hj, cb, hcb, hat, hu⟩)
                  · rcases List.mem_append.mp hr with hr | hr
                    · exact Or.inl hr
                    · have : r = r0 := List.mem_singleton.mp hr
                      subst this
                      exact Or.inr ⟨i, List.mem_cons_self _ _, cb0, hcalc,
                        hr0, hz⟩
                  · exact Or.inr
                      ⟨j, List.mem_cons_of_mem _ hj, cb, hcb, hat, hu⟩
                · rintro (hr | ⟨j, hj, cb, hcb, hat, hu⟩)
                  · exact Or.inl (List.mem_append.mpr (Or.inl hr))
                  · rcases List.mem_cons.mp hj with rfl | hj
                    · have := hdet cb r hcb hat
                      subst this
                      exact Or.inl (List.mem_append.mpr
                        (Or.inr (List.mem_singleton.mpr rfl)))
                    · exact Or.inr ⟨j, hj, cb, hcb, hat, hu⟩
            · rw [if_neg hz] at hcl
              obtain ⟨hmh, hmc⟩ := ih h0 c0 h c hcl
              constructor
              · intro r
                rw [hmh]
                constructor
                · rintro (hr | ⟨j, hj, cb, hcb, hat, hu⟩)
                  · exact Or.inl hr
                  · exact Or.inr
                      ⟨j, List.mem_cons_of_mem _ hj, cb, hcb, hat, hu⟩
                · rintro (hr | ⟨j, hj, cb, hcb, hat, hu⟩)
                  · exact Or.inl hr
                  · rcases List.mem_cons.mp hj with rfl | hj
                    · have := hdet cb r hcb hat
                      subst this
                      exact absurd hu hpos
                    · exact Or.inr ⟨j, hj, cb, hcb, hat, hu⟩
              · intro r
                rw [hmc]
                constructor
                · rintro (hr | ⟨j, hj, cb, hcb, hat, hu⟩)
                  · exact Or.inl hr
                  · exact Or.inr
                      ⟨j, List.mem_cons_of_mem _ hj, cb, hcb, hat, hu⟩
                · rintro (hr | ⟨j, hj, cb, hcb, hat, hu⟩)
                  · exact Or.inl hr
                  · rcases List.mem_cons.mp hj with rfl | hj
                    · have := hdet cb r hcb hat
                      subst this
                      exact absurd hu hz
                    · exact Or.inr ⟨j, hj, cb, hcb, hat, hu⟩

/-- On a store whose transactions all carry the (already-uppercase) code
`I`, `calculate_cost_basis` sees every row and nets BUY units against SELL
units. -/
lemma calculate_cost_basis_all_same (db : List Transaction) (I : String)
    (hne : db ≠ []) (hall : ∀ t ∈ db, t.isin = I) (hI : pyUpper I = I) :
    ∃ cb, calculate_cost_basis db I none = some cb
      ∧ cb.total_units =
        ((db.filter (fun t => t.transaction_type = .BUY)).map
          (fun t => t.units)).sum
        - ((db.filter (fun t => t.transaction_type = .SELL)).map
          (fun t => t.units)).sum := by
  have hfilter : db.filter (fun t => t.isin = pyUpper I) = db := by
    rw [List.filter_eq_self]
    intro t ht
    simp [hall t ht, hI]
  have hq : queryTransactions db I none =
      List.insertionSort (fun a b => a.date ≤ b.date) db := by
    rw [queryTransactions, hfilter]
  have hperm : List.Perm (queryTransactions db I none) db := by
    rw [hq]
    exact List.perm_insertionSort _ db
  have hne' : ¬ (queryTransactions db I none).isEmpty := by
    have : (queryTransactions db I none).length = db.length :=
      hperm.length_eq
    have hlen : 0 < db.length := List.length_pos.mpr hne
    simp only [List.isEmpty_iff]
    intro hnil
    rw [hnil] at this
    simp at this
    omega
  refine ⟨_, by rw [calculate_cost_basis]; rw [if_neg hne'], ?_⟩
  have hunits : (costBasisFold (queryTransactions db I none)).total_units
      = (((queryTransactions db I none).filter
          (fun t => t.transaction_type = .BUY)).map (fun t => t.units)).sum
        - (((queryTransactions db I none).filter
          (fun t => t.transaction_type = .SELL)).map
          (fun t => t.units)).sum := by
    rw [costBasisFold, costBasisStep_foldl]
    simp
  rw [hunits]
  have hbuy : List.Perm
      (((queryTransactions db I none).filter
        (fun t => t.transaction_type = .BUY)).map (fun t => t.units))
      ((db.filter (fun t => t.transaction_type = .BUY)).map
        (fun t => t.units)) :=
    (hperm.filter _).map _
  have hsell : List.Perm
      (((queryTransactions db I none).filter
        (fun t => t.transaction_type = .SELL)).map (fun t => t.units))
      ((db.filter (fun t => t.transaction_type = .SELL)).map
        (fun t => t.units)) :=
    (hperm.filter _).map _
  rw [hbuy.sum_eq, hsell.sum_eq]

/-- C2: the classifier puts a produced response in `holdings` exactly when
its `total_units` is strictly positive and in `closed_positions` exactly
when it is zero; negative-unit instruments land in neither; and after any
BUY-then-SELL-all history on a single instrument the instrument's units net
to zero and its response appears only in `closed_positions`, never in
`holdings`. -/
theorem holdings_closed_partition (db : List Transaction)
    (pvMap : String → Option ℚ) (h c : List CostBasisResponse)
    (hcl : calculate_current_holdings_and_closed_positions db pvMap
      = .ok (h, c)) :
    (∀ r ∈ h, 0 < r.total_units)
    ∧ (∀ r ∈ c, r.total_units = 0)
    ∧ (∀ i ∈ distinctIsins db, ∀ cb r,
        calculate_cost_basis db i none = some cb →
        attach_profit_loss cb (pvMap (pyUpper i)) = .ok r →
        ((0 < r.total_units → r ∈ h) ∧ (r.total_units = 0 → r ∈ c)
          ∧ (r.total_units < 0 → r ∉ h ∧ r ∉ c)))
    ∧ ∀ I, db ≠ [] → (∀ t ∈ db, t.isin = I) → pyUpper I = I →
        ((db.filter (fun t => t.transaction_type = .SELL)).map
          (fun t => t.units)).sum
          = ((db.filter (fun t => t.transaction_type = .BUY)).map
            (fun t => t.units)).sum →
        ∃ cb r, calculate_cost_basis db I none = some cb
          ∧ cb.total_units = 0
          ∧ attach_profit_loss cb (pvMap (pyUpper I)) = .ok r
          ∧ r ∈ c ∧ r ∉ h := by
  obtain ⟨hmh, hmc⟩ :=
    classifyGo_mem db pvMap (distinctIsins db) [] [] h c hcl
  have h1 : ∀ r ∈ h, 0 < r.total_units := by
    intro r hr
    rcases (hmh r).mp hr with hr0 | ⟨i, hi, cb, hcb, hat, hu⟩
    · simp at hr0
    · exact hu
  have h2 : ∀ r ∈ c, r.total_units = 0 := by
    intro r hr
    rcases (hmc r).mp hr with hr0 | ⟨i, hi, cb, hcb, hat, hu⟩
    · simp at hr0
    · exact hu
  refine ⟨h1, h2, ?_, ?_⟩
  · intro i hi cb r hcb hat
    refine ⟨fun hu => (hmh r).mpr (Or.inr ⟨i, hi, cb, hcb, hat, hu⟩),
      fun hu => (hmc r).mpr (Or.inr ⟨i, hi, cb, hcb, hat, hu⟩), ?_⟩
    intro hu
    constructor
    · intro hmem
      exact absurd (h1 r hmem) (by linarith)
    · intro hmem
      rw [h2 r hmem] at hu
      exact absurd hu (lt_irrefl 0)
  · intro I hne hall hI hsum
    obtain ⟨cb, hcb, hunits⟩ :=
      calculate_cost_basis_all_same db I hne hall hI
    have hz : cb.total_units = 0 := by
      rw [hunits, hsum]
      ring
    obtain ⟨r, hat, -, hu, -⟩ :=
      attach_profit_loss_ok cb (pvMap (pyUpper I))
    have hru : r.total_units = 0 := by rw [hu, hz]
    have hIdist : I ∈ distinctIsins db := by
      rw [mem_distinctIsins]
      obtain ⟨t, ht⟩ := List.exists_mem_of_ne_nil db hne
      exact List.mem_map.mpr ⟨t, ht, hall t ht⟩
    refine ⟨cb, r, hcb, hz, hat,
      (hmc r).mpr (Or.inr ⟨I, hIdist, cb, hcb, hat, hru⟩), ?_⟩
    intro hmem
    have := h1 r hmem
    rw [hru] at this
    exact absurd this (lt_irrefl 0)

theorem holdings_closed_partition_witness :
    ∃ cb r, calculate_cost_basis c2Db "IE00B4L5Y983" none = some cb
      ∧ cb.total_units = 0
      ∧ attach_profit_loss cb
          ((fun _ => (none : Option ℚ)) (pyUpper "IE00B4L5Y983")) = .ok r
      ∧ r ∈ [closedScenarioAttached]
      ∧ r ∉ ([] : List CostBasisResponse) := by
  have hup : pyUpper "IE00B4L5Y983" = "IE00B4L5Y983" := by decide
  have hcalc : calculate_cost_basis c2Db "IE00B4L5Y983" none
      = some closedScenarioCB := by
    norm_num [calculate_cost_basis, queryTransactions, costBasisFold,
      costBasisStep, c2Db, scenarioBuy, scenarioSellAll, closedScenarioCB,
      hup, List.insertionSort, List.orderedInsert]
  have hatt : attach_profit_loss closedScenarioCB none
      = .ok closedScenarioAttached := by
    rw [attach_profit_loss_none,
      closed_position_realized_pl_of_zero closedScenarioCB rfl]
    norm_num [closedScenarioCB, closedScenarioAttached, specGuardedPct]
  have hdist : distinctIsins c2Db = ["IE00B4L5Y983"] := by
    simp [distinctIsins, distinctAux, c2Db, scenarioBuy, scenarioSellAll]
  have hcl : calculate_current_holdings_and_closed_positions c2Db
      (fun _ => none) = .ok ([], [closedScenarioAttached]) := by
    rw [calculate_current_holdings_and_closed_positions, hdist,
      classifyGo, hcalc]
    dsimp only
    rw [hatt]
    dsimp only
    rw [if_neg (by norm_num [closedScenarioAttached, closedScenarioCB]),
      if_pos (by norm_num [closedScenarioAttached, closedScenarioCB]),
      classifyGo]
    simp
  have hthm := holdings_closed_partition c2Db (fun _ => none)
    [] [closedScenarioAttached] hcl
  refine hthm.2.2.2 "IE00B4L5Y983" (by simp [c2Db]) ?_ (by decide) ?_
  · intro t ht
    rcases List.mem_cons.mp ht with rfl | ht
    · rfl
    · rcases List.mem_cons.mp ht with rfl | ht
      · rfl
      · simp at ht
  · simp +decide only [c2Db, scenarioBuy, scenarioSellAll,
      List.filter_cons, List.filter_nil]
    norm_num

/-- C4: the portfolio summary always reports
`total_profit_loss = total_current_portfolio_invested_value +
total_withdrawn − total_fees − total_invested`, with the four totals being
the BUY price×units sum, the SELL price×units sum, the fee sum over all
rows, and the sum of stored position values; on the scenario of invested
2000, withdrawn 0, fees 3.50 and current value 2150 the profit/loss is
146.50. -/
theorem portfolio_summary_formula (db : List Transaction)
    (pvs : List PositionValue) :
    (∃ ps, get_portfolio_summary db pvs = .ok ps
      ∧ ps.total_invested =
        ((db.filter (fun t => t.transaction_type = .BUY)).map
          (fun t => t.price_per_unit * t.units)).sum
      ∧ ps.total_withdrawn =
        ((db.filter (fun t => t.transaction_type = .SELL)).map
          (fun t => t.price_per_unit * t.units)).sum
      ∧ ps.total_fees = (db.map (fun t => t.fee)).sum
      ∧ ps.total_current_portfolio_invested_value =
        (pvs.map (fun pv => pv.current_value)).sum
      ∧ ps.total_profit_loss =
        ps.total_current_portfolio_invested_value + ps.total_withdrawn
          - ps.total_fees - ps.total_invested)
    ∧ (∃ ps, get_portfolio_summary c4Db c4Pvs = .ok ps
      ∧ ps.total_invested = 2000
      ∧ ps.total_withdrawn = 0
      ∧ ps.total_fees = 7/2
      ∧ ps.total_current_portfolio_invested_value = 2150
      ∧ ps.total_profit_loss = 293/2) := by
  have hmain : ∀ (db : List Transaction) (pvs : List PositionValue),
      ∃ ps, get_portfolio_summary db pvs = .ok ps
        ∧ ps.total_invested =
          ((db.filter (fun t => t.transaction_type = .BUY)).map
            (fun t => t.price_per_unit * t.units)).sum
        ∧ ps.total_withdrawn =
          ((db.filter (fun t => t.transaction_type = .SELL)).map
            (fun t => t.price_per_unit * t.units)).sum
        ∧ ps.total_fees = (db.map (fun t => t.fee)).sum
        ∧ ps.total_current_portfolio_invested_value =
          (pvs.map (fun pv => pv.current_value)).sum
        ∧ ps.total_profit_loss =
          ps.total_current_portfolio_invested_value + ps.total_withdrawn
            - ps.total_fees - ps.total_invested := by
    intro db pvs
    obtain ⟨⟨h, c⟩, hcl⟩ := classifyGo_ok db (positionValuesMap pvs)
      (distinctIsins db) [] []
    have hval : (if pvs.isEmpty then (0:ℚ)
        else (pvs.map (fun pv => pv.current_value)).sum)
        = (pvs.map (fun pv => pv.current_value)).sum := by
      cases pvs with
      | nil => simp
      | cons a l => simp
    have hok : get_portfolio_summary db pvs = .ok
        { total_invested :=
            ((db.filter (fun t => t.transaction_type = .BUY)).map
              (fun t => t.price_per_unit * t.units)).sum
          total_withdrawn :=
            ((db.filter (fun t => t.transaction_type = .SELL)).map
              (fun t => t.price_per_unit * t.units)).sum
          total_fees := (db.map (fun t => t.fee)).sum
          total_current_portfolio_invested_value :=
            if pvs.isEmpty then 0
            else (pvs.map (fun pv => pv.current_value)).sum
          total_profit_loss :=
            (if pvs.isEmpty then 0
              else (pvs.map (fun pv => pv.current_value)).sum)
            + ((db.filter (fun t => t.transaction_type = .SELL)).map
                (fun t => t.price_per_unit * t.units)).sum
            - (db.map (fun t => t.fee)).sum
            - ((db.filter (fun t => t.transaction_type = .BUY)).map
                (fun t => t.price_per_unit * t.units)).sum
          holdings := h
          closed_positions := c } := by
      rw [get_portfolio_summary,
        calculate_current_holdings_and_closed_positions, hcl]
    exact ⟨_, hok, rfl, rfl, rfl, hval, rfl⟩
  refine ⟨hmain db pvs, ?_⟩
  obtain ⟨ps, hps, h1, h2, h3, h4, h5⟩ := hmain c4Db c4Pvs
  refine ⟨ps, hps, ?_, ?_, ?_, ?_, ?_⟩
  · rw [h1]
    simp +decide only [c4Db, c4Tx, List.filter_cons, List.filter_nil]
    try norm_num
  · rw [h2]
    simp +decide only [c4Db, c4Tx, List.filter_cons, List.filter_nil]
    try norm_num
  · rw [h3]
    norm_num [c4Db, c4Tx]
  · rw [h4]
    norm_num [c4Pvs]
  · have i1 : ps.total_invested = 2000 := by
      rw [h1]
      simp +decide only [c4Db, c4Tx, List.filter_cons, List.filter_nil]
      norm_num
    have i2 : ps.total_withdrawn = 0 := by
      rw [h2]
      simp +decide only [c4Db, c4Tx, List.filter_cons, List.filter_nil]
      try norm_num
    have i3 : ps.total_fees = 7/2 := by
      rw [h3]
      norm_num [c4Db, c4Tx]
    have i4 : ps.total_current_portfolio_invested_value = 2150 := by
      rw [h4]
      norm_num [c4Pvs]
    rw [h5, i1, i2, i3, i4]
    norm_num

/-- C6 (code bug; the code contradicts its own tests): with no stored
setting `create_snapshot` does use the default rate 25.00 and converts the
CZK asset 2400.00 by division (value_eur 96); but as soon as an
exchange-rate setting is stored — e.g. 24.00, the claim's scenario —
`get_exchange_rate_setting(db) or Decimal("25.00")` yields the
`UserSetting` object itself, so converting any CZK asset raises
`TypeError` instead of producing 2400 / 24 = 100 as the claim and the
repository's own snapshot tests state. -/
theorem create_snapshot_exchange_rate_bug :
    (∃ rows md, create_snapshot [] [] [czkAsset] [] none 0 = .ok (rows, md)
      ∧ rows.map (fun r => r.value_eur) = [0, 96]
      ∧ md.exchange_rate_used = Sum.inr 25)
    ∧ (∃ e, create_snapshot [] [] [czkAsset] [rate24Setting] none 0
        = .error e)
    ∧ resolved_exchange_rate [rate24Setting] = Sum.inl rate24Setting := by
  have hps : get_portfolio_summary [] [] = .ok
      { total_invested := 0, total_withdrawn := 0, total_fees := 0
        total_current_portfolio_invested_value := 0
        total_profit_loss := 0, holdings := [], closed_positions := [] } := by
    rw [get_portfolio_summary, calculate_current_holdings_and_closed_positions]
    norm_num [distinctIsins, distinctAux, classifyGo]
  have hsorted : get_all_other_assets [czkAsset] = [czkAsset] := rfl
  have hfind : get_exchange_rate_setting [rate24Setting]
      = some rate24Setting := by
    simp [get_exchange_rate_setting, List.find?, rate24Setting,
      EXCHANGE_RATE_KEY]
  refine ⟨?_, ?_, ?_⟩
  · have hrows : create_snapshot [] [] [czkAsset] [] none 0 = .ok
        ([ { snapshot_date := 0, asset_type := "investments"
             asset_detail := none, currency := "EUR", value := 0
             exchange_rate := Sum.inr 25, value_eur := 0 },
           { snapshot_date := 0, asset_type := "cd_account"
             asset_detail := none, currency := "CZK", value := 2400
             exchange_rate := Sum.inr 25, value_eur := 96 } ],
         { snapshot_date := 0, exchange_rate_used := Sum.inr 25
           total_assets_captured := 2, total_value_eur := 96 }) := by
      rw [create_snapshot, get_all_other_assets_with_investments, hps]
      dsimp only
      rw [hsorted]
      norm_num [resolved_exchange_rate, get_exchange_rate_setting,
        createSnapshotRows, pyDivDyn, pyDiv, czkAsset]
    exact ⟨_, _, hrows, by norm_num, rfl⟩
  · rw [create_snapshot, get_all_other_assets_with_investments, hps]
    dsimp only
    rw [hsorted]
    refine ⟨"TypeError: unsupported operand for /", ?_⟩
    norm_num [resolved_exchange_rate, hfind, createSnapshotRows, pyDivDyn,
      czkAsset]
    simp +decide
  · rw [resolved_exchange_rate, hfind]

lemma getLast?_cons_getLastD {α : Type} (a : α) (l : List α) :
    (a :: l).getLast? = some (l.getLastD a) := by
  induction l generalizing a with
  | nil => rfl
  | cons b l ih => rw [List.getLast?_cons_cons, ih b, List.getLastD_cons]

lemma applyChanges_eq (ov : ℚ) (l : List SnapshotSummary) :
    applyChanges ov l = .ok (l.map (updOldest ov)) := by
  induction l with
  | nil => rfl
  | cons s rest ih =>
      rw [applyChanges]
      by_cases h : 0 < ov
      · rw [if_pos h]
        have hd : pyDiv (s.total_value_eur - ov) ov
            = .ok ((s.total_value_eur - ov) / ov) := by
          simp [pyDiv, ne_of_gt h]
        rw [hd]
        dsimp only
        rw [ih]
        dsimp only
        simp [updOldest, specGuardedPct, h]
      · rw [if_neg h]
        dsimp only
        rw [ih]
        dsimp only
        simp [updOldest, specGuardedPct, h]

lemma avg_calc_eq (n : Nat) (vc : ℚ) (db : Int) :
    avg_monthly_increment_calc n vc db =
      .ok (if n ≤ 1 ∨ db = 0 then 0
           else quantize2 (vc / (db : ℚ) * 30)) := by
  unfold avg_monthly_increment_calc
  by_cases h : n ≤ 1 ∨ db = 0
  · simp [h]
  · have hdb : (db : ℚ) ≠ 0 := by
      push_neg at h
      exact_mod_cast h.2
    simp [h, pyDiv, hdb]

/-- Closed-form evaluation of `get_snapshot_summaries`: the result is
always `ok`; the summary list is the descending-by-date summaries updated
against the oldest returned entry, and the increment is the guarded
30-day-normalised slope. -/
lemma get_snapshot_summaries_eq (rows : List AssetSnapshot)
    (sd ed : Option ℚ) :
    get_snapshot_summaries rows sd ed =
      (match (List.insertionSort (fun a b : ℚ => b ≤ a)
          (distinctAux [] ((snapFiltered rows sd ed).map
            (fun r => r.snapshot_date)))).map
          (mkDateSummary (snapFiltered rows sd ed)) with
        | [] => .ok ([], 0)
        | latest :: rest =>
            .ok ((latest :: rest).map
                (updOldest (rest.getLastD latest).total_value_eur),
              if (latest :: rest).length ≤ 1 ∨
                  Int.floor (latest.snapshot_date
                    - (rest.getLastD latest).snapshot_date) = 0 then 0
              else quantize2 ((latest.total_value_eur
                  - (rest.getLastD latest).total_value_eur)
                / ((Int.floor (latest.snapshot_date
                    - (rest.getLastD latest).snapshot_date) : Int) : ℚ)
                * 30))) := by
  unfold get_snapshot_summaries
  dsimp only
  by_cases hemp : (snapFiltered rows sd ed).isEmpty
  · have hnil : snapFiltered rows sd ed = [] := by
      simpa using hemp
    rw [if_pos hemp, hnil]
    rfl
  · rw [if_neg hemp]
    cases hsum : (List.insertionSort (fun a b : ℚ => b ≤ a)
        (distinctAux [] ((snapFiltered rows sd ed).map
          (fun r => r.snapshot_date)))).map
        (mkDateSummary (snapFiltered rows sd ed)) with
    | nil => rfl
    | cons latest rest =>
        dsimp only
        rw [avg_calc_eq]
        dsimp only
        rw [applyChanges_eq]

lemma pairwise_getLast?_min (l : List SnapshotSummary)
    (hp : l.Pairwise (fun a b => b.snapshot_date ≤ a.snapshot_date)) :
    ∀ ol, l.getLast? = some ol →
      ∀ x ∈ l, ol.snapshot_date ≤ x.snapshot_date := by
  induction l with
  | nil => intro ol h; cases h
  | cons a l ih =>
      intro ol hol x hx
      cases l with
      | nil =>
          injection hol with hol
          subst hol
          rcases List.mem_cons.mp hx with rfl | hx
          · exact le_refl _
          · simp at hx
      | cons b l' =>
          rw [List.getLast?_cons_cons] at hol
          rcases List.mem_cons.mp hx with rfl | hx
          · have holmem : ol ∈ b :: l' :=
              List.mem_of_getLast?_eq_some hol
            exact List.rel_of_pairwise_cons hp holmem
          · exact ih (List.Pairwise.of_cons hp) ol hol x hx

/-- C7: the snapshot summary never raises a division error; its dates are
sorted descending; the baseline is the last (oldest-within-returned-set)
entry: every entry's absolute change is its total minus the baseline
total, its percentage change is the guarded `÷ baseline × 100` (exactly 0
whenever the baseline total is ≤ 0), and the baseline entry itself reports
0 for both fields. -/
theorem snapshot_summary_baseline (rows : List AssetSnapshot)
    (sd ed : Option ℚ) :
    (∃ res, get_snapshot_summaries rows sd ed = .ok res)
    ∧ ∀ s avg, get_snapshot_summaries rows sd ed = .ok (s, avg) →
        s.Pairwise (fun a b => b.snapshot_date ≤ a.snapshot_date)
        ∧ ∀ ol, s.getLast? = some ol →
            (∀ x ∈ s, ol.snapshot_date ≤ x.snapshot_date)
            ∧ (∀ x ∈ s,
                x.absolute_change_from_oldest
                  = x.total_value_eur - ol.total_value_eur
                ∧ x.percentage_change_from_oldest
                  = specGuardedPct
                      (x.total_value_eur - ol.total_value_eur)
                      ol.total_value_eur)
            ∧ ol.absolute_change_from_oldest = 0
            ∧ ol.percentage_change_from_oldest = 0 := by
  have heq := get_snapshot_summaries_eq rows sd ed
  cases hsum : (List.insertionSort (fun a b : ℚ => b ≤ a)
      (distinctAux [] ((snapFiltered rows sd ed).map
        (fun r => r.snapshot_date)))).map
      (mkDateSummary (snapFiltered rows sd ed)) with
  | nil =>
      rw [hsum] at heq
      refine ⟨⟨([], 0), heq⟩, ?_⟩
      intro s avg hok
      rw [heq] at hok
      injection hok with hok
      have hs : s = [] := (congrArg Prod.fst hok).symm
      subst hs
      refine ⟨List.Pairwise.nil, ?_⟩
      intro ol hol
      cases hol
  | cons latest rest =>
      rw [hsum] at heq
      refine ⟨⟨_, heq⟩, ?_⟩
      intro s avg hok
      rw [heq] at hok
      injection hok with hok
      have hs : s = (latest :: rest).map
          (updOldest (rest.getLastD latest).total_value_eur) :=
        (congrArg Prod.fst hok).symm
      subst hs
      have hdatesorted : (List.insertionSort (fun a b : ℚ => b ≤ a)
          (distinctAux [] ((snapFiltered rows sd ed).map
            (fun r => r.snapshot_date)))).Pairwise
          (fun a b : ℚ => b ≤ a) :=
        List.sorted_insertionSort _ _
      have hpair0 : (latest :: rest).Pairwise
          (fun a b => b.snapshot_date ≤ a.snapshot_date) := by
        rw [← hsum]
        exact List.Pairwise.map _ (fun a b h => h) hdatesorted
      have hpair : ((latest :: rest).map
          (updOldest (rest.getLastD latest).total_value_eur)).Pairwise
          (fun a b => b.snapshot_date ≤ a.snapshot_date) :=
        List.Pairwise.map _ (fun a b h => h) hpair0
      refine ⟨hpair, ?_⟩
      intro ol hol
      rw [List.getLast?_map, getLast?_cons_getLastD] at hol
      injection hol with hol
      have hol' : ol = updOldest (rest.getLastD latest).total_value_eur
          (rest.getLastD latest) := hol.symm
      subst hol'
      refine ⟨?_, ?_, ?_, ?_⟩
      · apply pairwise_getLast?_min _ hpair
        rw [List.getLast?_map, getLast?_cons_getLastD]
        rfl
      · intro x hx
        obtain ⟨y, hy, rfl⟩ := List.mem_map.mp hx
        exact ⟨rfl, rfl⟩
      · simp [updOldest]
      · simp [updOldest, specGuardedPct]

/-- C8: `avg_monthly_increment` is exactly 0 when there are fewer than two
distinct snapshot dates or when the day span between the newest and oldest
returned dates is 0, and otherwise equals
`((newest total − oldest total) ÷ days) × 30` rounded to two decimal
places (banker's rounding, `quantize2`). -/
theorem snapshot_avg_monthly_increment (rows : List AssetSnapshot)
    (sd ed : Option ℚ) :
    ∀ s avg, get_snapshot_summaries rows sd ed = .ok (s, avg) →
      (s.length ≤ 1 → avg = 0)
      ∧ ∀ nw ol, s.head? = some nw → s.getLast? = some ol →
          (Int.floor (nw.snapshot_date - ol.snapshot_date) = 0 → avg = 0)
          ∧ (2 ≤ s.length →
              Int.floor (nw.snapshot_date - ol.snapshot_date) ≠ 0 →
              avg = quantize2 ((nw.total_value_eur - ol.total_value_eur)
                / ((Int.floor (nw.snapshot_date - ol.snapshot_date) : Int)
                  : ℚ) * 30)) := by
  have heq := get_snapshot_summaries_eq rows sd ed
  cases hsum : (List.insertionSort (fun a b : ℚ => b ≤ a)
      (distinctAux [] ((snapFiltered rows sd ed).map
        (fun r => r.snapshot_date)))).map
      (mkDateSummary (snapFiltered rows sd ed)) with
  | nil =>
      rw [hsum] at heq
      intro s avg hok
      rw [heq] at hok
      injection hok with hok
      have hs : s = [] := (congrArg Prod.fst hok).symm
      have ha : avg = 0 := (congrArg Prod.snd hok).symm
      subst hs
      subst ha
      refine ⟨fun _ => rfl, ?_⟩
      intro nw ol hnw hol
      cases hnw
  | cons latest rest =>
      rw [hsum] at heq
      intro s avg hok
      rw [heq] at hok
      injection hok with hok
      have hs : s = (latest :: rest).map
          (updOldest (rest.getLastD latest).total_value_eur) :=
        (congrArg Prod.fst hok).symm
      have ha : avg =
          (if (latest :: rest).length ≤ 1 ∨
              Int.floor (latest.snapshot_date
                - (rest.getLastD latest).snapshot_date) = 0 then 0
           else quantize2 ((latest.total_value_eur
              - (rest.getLastD latest).total_value_eur)
            / ((Int.floor (latest.snapshot_date
                - (rest.getLastD latest).snapshot_date) : Int) : ℚ)
            * 30)) := (congrArg Prod.snd hok).symm
      subst hs
      have hlen : ((latest :: rest).map
          (updOldest (rest.getLastD latest).total_value_eur)).length
          = (latest :: rest).length := List.length_map _ _
      constructor
      · intro hle
        rw [hlen] at hle
        rw [ha, if_pos (Or.inl hle)]
      · intro nw ol hnw hol
        rw [List.head?_map] at hnw
        simp only [List.head?_cons, Option.map_some] at hnw
        injection hnw with hnw
        have hnw' : nw = updOldest
            (rest.getLastD latest).total_value_eur latest := hnw.symm
        subst hnw'
        rw [List.getLast?_map, getLast?_cons_getLastD] at hol
        injection hol with hol
        have hol' : ol = updOldest (rest.getLastD latest).total_value_eur
            (rest.getLastD latest) := hol.symm
        subst hol'
        constructor
        · intro hfl
          have hfl' : Int.floor (latest.snapshot_date
              - (rest.getLastD latest).snapshot_date) = 0 := hfl
          rw [ha, if_pos (Or.inr hfl')]
        · intro hge hfl
          have hfl' : Int.floor (latest.snapshot_date
              - (rest.getLastD latest).snapshot_date) ≠ 0 := hfl
          rw [hlen] at hge
          rw [ha, if_neg (by
            push_neg
            exact ⟨by omega, hfl'⟩)]
          rfl

lemma snapDb_summaries_eval :
    get_snapshot_summaries snapDb none none
      = .ok ([snapSum10, snapSum0], 150) := by
  have hsf : snapFiltered snapDb none none = snapDb := rfl
  have hdates : distinctAux []
      (snapDb.map (fun r => r.snapshot_date)) = [10, 0] := by
    norm_num [snapDb, snapRow1, snapRow2, distinctAux]
  have hsortd : List.insertionSort (fun a b : ℚ => b ≤ a)
      ([10, 0] : List ℚ) = [10, 0] := by
    norm_num [List.insertionSort, List.orderedInsert]
  have hmk10 : mkDateSummary snapDb 10 =
      { snapSum10 with
        absolute_change_from_oldest := 0
        percentage_change_from_oldest := 0 } := by
    norm_num [mkDateSummary, snapDb, snapRow1, snapRow2, groupSum,
      distinctAux, List.insertionSort, List.orderedInsert, snapSum10]
  have hmk0 : mkDateSummary snapDb 0 =
      { snapSum0 with
        absolute_change_from_oldest := 0
        percentage_change_from_oldest := 0 } := by
    norm_num [mkDateSummary, snapDb, snapRow1, snapRow2, groupSum,
      distinctAux, List.insertionSort, List.orderedInsert, snapSum0]
  rw [get_snapshot_summaries_eq, hsf, hdates, hsortd]
  rw [List.map_cons, List.map_cons, List.map_nil, hmk10, hmk0]
  dsimp only [List.getLastD_cons, List.getLastD]
  norm_num [updOldest, specGuardedPct, quantize2, snapSum10, snapSum0,
    Int.floor_intCast]

theorem snapshot_summary_baseline_witness :
    ([snapSum10, snapSum0] : List SnapshotSummary).getLast? = some snapSum0
    ∧ (∀ x ∈ ([snapSum10, snapSum0] : List SnapshotSummary),
        x.absolute_change_from_oldest
          = x.total_value_eur - snapSum0.total_value_eur
        ∧ x.percentage_change_from_oldest
          = specGuardedPct (x.total_value_eur - snapSum0.total_value_eur)
            snapSum0.total_value_eur)
    ∧ snapSum0.absolute_change_from_oldest = 0
    ∧ snapSum0.percentage_change_from_oldest = 0 := by
  have h := (snapshot_summary_baseline snapDb none none).2
    [snapSum10, snapSum0] 150 snapDb_summaries_eval
  have h2 := h.2 snapSum0 rfl
  exact ⟨rfl, h2.2.1, h2.2.2.1, h2.2.2.2⟩

theorem snapshot_avg_monthly_increment_witness :
    2 ≤ ([snapSum10, snapSum0] : List SnapshotSummary).length
    ∧ Int.floor (snapSum10.snapshot_date - snapSum0.snapshot_date) ≠ 0
    ∧ (150 : ℚ) = quantize2
        ((snapSum10.total_value_eur - snapSum0.total_value_eur)
          / ((Int.floor (snapSum10.snapshot_date - snapSum0.snapshot_date)
            : Int) : ℚ) * 30) := by
  have h := snapshot_avg_monthly_increment snapDb none none
    [snapSum10, snapSum0] 150 snapDb_summaries_eval
  have hfl : Int.floor (snapSum10.snapshot_date
      - snapSum0.snapshot_date) ≠ 0 := by
    norm_num [snapSum10, snapSum0]
  have h2 := (h.2 snapSum10 snapSum0 rfl rfl).2 (by norm_num) hfl
  exact ⟨by norm_num, hfl, h2⟩

/-- C9: a transaction create, update or delete always completes: create is
infallible, and update/delete succeed whenever the transaction id exists,
for every injected failure of the position-value cleanup step — the
cleanup helper catches any exception, and the reopened-position cleanup
catches the only error `delete_position_value` raises. -/
theorem transaction_mutations_never_blocked_by_cleanup (s : Store)
    (transaction_data : Transaction) (transaction_id : Int)
    (update_data : TransactionUpdate) (f f1 f2 : Option String) :
    (∃ t s', create_transaction s transaction_data = (t, s'))
    ∧ ((∃ t ∈ s.transactions, t.id = transaction_id) →
        (∃ r, update_transaction s transaction_id update_data f1 f2
          = .ok r)
        ∧ (∃ s', delete_transaction s transaction_id f = .ok s')) := by
  refine ⟨⟨_, _, rfl⟩, ?_⟩
  rintro ⟨t, ht, htid⟩
  have hfind : ∃ t', s.transactions.find?
      (fun t => t.id = transaction_id) = some t' := by
    have : (s.transactions.find? (fun t => t.id = transaction_id)).isSome :=
      List.find?_isSome.mpr ⟨t, ht, by simp [htid]⟩
    exact Option.isSome_iff_exists.mp this
  obtain ⟨t', hfind⟩ := hfind
  constructor
  · rw [update_transaction, get_transaction, hfind]
    exact ⟨_, rfl⟩
  · rw [delete_transaction, get_transaction, hfind]
    exact ⟨_, rfl⟩

theorem transaction_mutations_never_blocked_by_cleanup_witness :
    (∃ t s', create_transaction c9Store scenarioSell = (t, s'))
    ∧ (∃ r, update_transaction c9Store 1 c9Upd
        (some "OperationalError") (some "OperationalError") = .ok r)
    ∧ (∃ s', delete_transaction c9Store 1 (some "OperationalError")
        = .ok s') := by
  have hthm := transaction_mutations_never_blocked_by_cleanup c9Store
    scenarioSell 1 c9Upd (some "OperationalError")
    (some "OperationalError") (some "OperationalError")
  have hmem : ∃ t ∈ c9Store.transactions, t.id = 1 :=
    ⟨scenarioBuy, by simp [c9Store], rfl⟩
  exact ⟨hthm.1, (hthm.2 hmem).1, (hthm.2 hmem).2⟩

end FinanceTrack
